import Mathlib

/-!
Verification of the match-session server in `src/app.py` (a single-room
chess server: seat assignment, start handshake, match clock, move
arbitration, disconnect/forfeit termination).

The Python module's global mutable state is embedded as the record
`ServerState`; each socket handler becomes a pure function
`ServerState → inputs → ServerState × List Event`, where `Event` records
the outbound emits (`state`, `assign`, `overlay`, `startOffer`,
`startStatus`, `errorMsg`).  The external move-legality engine
(`python-chess`) is out of scope per the specification and is embedded
as an abstract `Oracle` parameter.
-/

/-- Socket connection identifier (`request.sid`). -/
abbrev Sid := Nat

/-- Persistent player identity (`playerId`). -/
abbrev Pid := String

/-- A seat colour, or spectator (the `'w'`/`'b'`/`'spectator'` strings). -/
inductive Color where
  | w
  | b
  | spectator
deriving DecidableEq, Repr

/-- Render a colour the way the Python code interpolates it. -/
def Color.str : Color → String
  | .w => "w"
  | .b => "b"
  | .spectator => "spectator"

/-- The pending start offer
(`pending_start = {'from': sid, 'base': mins, 'inc': inc, 'opponent': sid or None}`). -/
structure Pending where
  fromSid : Sid
  base : Int
  inc : Int
  opponent : Option Sid
deriving DecidableEq, Repr

/-- Abstract interface to the external move-legality engine (`python-chess`),
specified only at its interface: parsing, legality, position update and
terminal conditions.  `fromUci` returning `none` models a raised exception. -/
structure Oracle (Pos Move : Type) where
  startPos : Pos
  turnIsWhite : Pos → Bool
  fen : Pos → String
  fromUci : String → Option Move
  promotionIsSome : Move → Bool
  isLegal : Pos → Move → Bool
  push : Pos → Move → Pos
  isGameOver : Pos → Bool
  isCheckmate : Pos → Bool
  isStalemate : Pos → Bool
  isInsufficientMaterial : Pos → Bool
  isFivefoldRepetition : Pos → Bool
  isSeventyfiveMoves : Pos → Bool
  canClaimFiftyMoves : Pos → Bool
  canClaimThreefold : Pos → Bool

/-- The module-level mutable state of `app.py`: `board`, `players`,
`player_ids`, `sid_to_player_id`, `names`, `connected_sids`, `white_time`,
`black_time`, `inc_per_move`, `_timer_running`, `pending_start`. -/
structure ServerState (Pos : Type) where
  board : Pos
  players_w : Option Sid
  players_b : Option Sid
  player_ids_w : Option Pid
  player_ids_b : Option Pid
  sid_to_player_id : List (Sid × Pid)
  names : List (Sid × String)
  connected_sids : List Sid
  white_time : Int
  black_time : Int
  inc_per_move : Int
  timer_running : Bool
  pending_start : Option Pending
deriving DecidableEq

/-- The `state` broadcast payload built by `broadcast_state`. -/
structure StatePayload where
  fen : String
  turn : Color
  whiteTime : Int
  blackTime : Int
  inc : Int
  over : Bool
  checkmate : Bool
  draw : Bool
  whiteName : String
  blackName : String
deriving DecidableEq, Repr

/-- The optional `extra` dict merged into a `state` broadcast. -/
inductive Extra where
  | plain
  | reset
  | started
  | lastMove (fromSq toSq : String)
  | note (text : String)
  | overTrue
deriving DecidableEq, Repr

/-- The `assign` payload built by `emit_assign_to_sid`. -/
structure AssignPayload where
  color : Color
  fen : String
  whiteTime : Int
  blackTime : Int
  inc : Int
  turn : Color
  whiteName : String
  blackName : String
  started : Bool
deriving DecidableEq, Repr

/-- An outbound emit.  Targeted emits record the destination sid;
`stateB` and `overlay` are global broadcasts. -/
inductive Event where
  | stateB (payload : StatePayload) (extra : Extra)
  | assign (dest : Sid) (payload : AssignPayload)
  | overlay (message : String) (winnerName : Option String)
      (winnerColor : Option Color) (reason : Option String)
  | startOffer (dest : Sid) (fromName : String) (baseMins : Int) (inc : Int)
  | startStatus (dest : Sid) (status : String) (byName : Option String)
  | errorMsg (dest : Sid) (message : String)
deriving DecidableEq, Repr

/-- Replace the binding of `k` in an association list (dict assignment). -/
def setAssoc {β : Type} (l : List (Sid × β)) (k : Sid) (v : β) : List (Sid × β) :=
  (k, v) :: l.filter (fun p => p.1 ≠ k)

/-- Remove the binding of `k` (dict `pop(k, None)`). -/
def eraseAssoc {β : Type} (l : List (Sid × β)) (k : Sid) : List (Sid × β) :=
  l.filter (fun p => p.1 ≠ k)

/-- `names.get(sid, default)` where the key may itself be `None`
(e.g. `names.get(players['w'], 'White')`). -/
def lookupName (names : List (Sid × String)) (osid : Option Sid) (dflt : String) : String :=
  match osid with
  | none => dflt
  | some sid => ((names.lookup sid).getD dflt)

section Model

variable {Pos Move : Type}

/-- `get_turn()`: `'w'` iff `board.turn == chess.WHITE`. -/
def get_turn (O : Oracle Pos Move) (s : ServerState Pos) : Color :=
  if O.turnIsWhite s.board then .w else .b

/-- The payload assembled by `broadcast_state`. -/
def broadcastPayload (O : Oracle Pos Move) (s : ServerState Pos) : StatePayload :=
  { fen := O.fen s.board
    turn := get_turn O s
    whiteTime := s.white_time
    blackTime := s.black_time
    inc := s.inc_per_move
    over := O.isGameOver s.board
    checkmate := O.isCheckmate s.board
    draw := O.isGameOver s.board && !O.isCheckmate s.board
    whiteName := lookupName s.names s.players_w "White"
    blackName := lookupName s.names s.players_b "Black" }

/-- `broadcast_state(extra)` as a single broadcast event. -/
def broadcast_state (O : Oracle Pos Move) (s : ServerState Pos) (x : Extra) : Event :=
  .stateB (broadcastPayload O s) x

/-- The payload assembled by `emit_assign_to_sid`. -/
def assignPayload (O : Oracle Pos Move) (s : ServerState Pos) (sid : Sid)
    (started : Bool) : AssignPayload :=
  { color :=
      if s.players_w = some sid then .w
      else if s.players_b = some sid then .b
      else .spectator
    fen := O.fen s.board
    whiteTime := s.white_time
    blackTime := s.black_time
    inc := s.inc_per_move
    turn := get_turn O s
    whiteName := lookupName s.names s.players_w "White"
    blackName := lookupName s.names s.players_b "Black"
    started := started }

/-- `emit_assign_to_sid(sid, started)`. -/
def emit_assign (O : Oracle Pos Move) (s : ServerState Pos) (sid : Sid)
    (started : Bool) : Event :=
  .assign sid (assignPayload O s sid started)

/-- `broadcast_assignments(started)`: one `assign` per connected sid. -/
def broadcast_assignments (O : Oracle Pos Move) (s : ServerState Pos)
    (started : Bool) : List Event :=
  s.connected_sids.map (fun sid => emit_assign O s sid started)

/-- The initial module-level state of `app.py` (lines 19-31). -/
def initialState (O : Oracle Pos Move) : ServerState Pos :=
  { board := O.startPos
    players_w := none
    players_b := none
    player_ids_w := none
    player_ids_b := none
    sid_to_player_id := []
    names := []
    connected_sids := []
    white_time := 120
    black_time := 120
    inc_per_move := 0
    timer_running := false
    pending_start := none }

/-- `reset_game(base_mins, inc)`: stop the timer, new board, clocks to
`base*60`, set the increment, broadcast a `reset` state. -/
def reset_game (O : Oracle Pos Move) (s : ServerState Pos) (base_mins inc : Int) :
    ServerState Pos × List Event :=
  let s1 : ServerState Pos :=
    { s with
      timer_running := false
      board := O.startPos
      white_time := base_mins * 60
      black_time := base_mins * 60
      inc_per_move := inc }
  (s1, [broadcast_state O s1 .reset])

/-- `on_connect`: register the sid, send it an assignment, and forward a
pending start offer to a late joiner. -/
def on_connect (O : Oracle Pos Move) (s : ServerState Pos) (sid : Sid) :
    ServerState Pos × List Event :=
  let s1 : ServerState Pos :=
    { s with
      connected_sids :=
        if s.connected_sids.contains sid then s.connected_sids
        else sid :: s.connected_sids }
  let evs :=
    [emit_assign O s1 sid s1.timer_running] ++
      (match s1.pending_start with
       | some p =>
         if p.fromSid ≠ sid then
           [Event.startOffer sid (lookupName s1.names (some p.fromSid) "Player") p.base p.inc]
         else []
       | none => [])
  (s1, evs)

/-- `on_set_time_control`: unconditionally `reset_game(base, inc)`. -/
def on_set_time_control (O : Oracle Pos Move) (s : ServerState Pos) (base inc : Int) :
    ServerState Pos × List Event :=
  reset_game O s base inc

/-- `on_start` (legacy): start only when both seats occupied and no pending
handshake. -/
def on_start (O : Oracle Pos Move) (s : ServerState Pos) :
    ServerState Pos × List Event :=
  if s.players_w.isSome ∧ s.players_b.isSome ∧ s.pending_start = none then
    let s1 := { s with timer_running := true }
    (s1, [broadcast_state O s1 .started])
  else (s, [])

/-- The seat-restore check of `on_identify` (lines 180-188): only when the
game is not running, and white is checked before black. -/
def restoredColor (s : ServerState Pos) (pid : Pid) : Option Color :=
  if s.timer_running then none
  else if s.player_ids_w = some pid then some .w
  else if s.player_ids_b = some pid then some .b
  else none

/-- `on_identify`: record the sid→playerId binding, restore a remembered
seat when the game is not running, otherwise assign the first empty seat,
then send an assignment and broadcast state. -/
def on_identify (O : Oracle Pos Move) (s : ServerState Pos) (sid : Sid)
    (playerId : Option Pid) : ServerState Pos × List Event :=
  match playerId with
  | none => (s, [])
  | some pid =>
    if pid = "" then (s, [])
    else
      let s1 := { s with sid_to_player_id := setAssoc s.sid_to_player_id sid pid }
      let restored : Option Color := restoredColor s1 pid
      let s2 : ServerState Pos :=
        match restored with
        | some .w => { s1 with players_w := some sid }
        | some .b => { s1 with players_b := some sid }
        | _ => s1
      let s3c : ServerState Pos × Color :=
        match restored with
        | some c => (s2, c)
        | none =>
          if s2.players_w = none then
            ({ s2 with players_w := some sid, player_ids_w := some pid }, .w)
          else if s2.players_b = none then
            ({ s2 with players_b := some sid, player_ids_b := some pid }, .b)
          else if s2.players_w = some sid then (s2, .w)
          else if s2.players_b = some sid then (s2, .b)
          else (s2, .spectator)
      let s3 := s3c.1
      (s3, [emit_assign O s3 sid s3.timer_running,
            broadcast_state O s3 (.note (toString sid ++ " joined as " ++ s3c.2.str))])

/-- `on_disconnect`: drop the sid; if a seated player left during a running
game, stop the clock and broadcast the disconnect overlay; clear the seat
and its remembered identity, the display name, and an authored pending
offer; finally broadcast state. -/
def on_disconnect (O : Oracle Pos Move) (s : ServerState Pos) (sid : Sid) :
    ServerState Pos × List Event :=
  let s1 := { s with connected_sids := s.connected_sids.filter (fun x => x ≠ sid) }
  let dColor : Option Color :=
    if s1.players_w = some sid then some .w
    else if s1.players_b = some sid then some .b
    else none
  let ended := dColor.isSome && s1.timer_running
  let overlayEvs : List Event :=
    if ended then
      let wc : Color := if dColor = some .w then .b else .w
      let wsid := if wc = .w then s1.players_w else s1.players_b
      let wname := lookupName s1.names wsid (if wc = .w then "White" else "Black")
      [Event.overlay (wname ++ " wins - opponent disconnected") (some wname)
        (some wc) (some "Opponent disconnected")]
    else []
  let s2 := if ended then { s1 with timer_running := false } else s1
  let s3 :=
    if s2.players_w = some sid then { s2 with players_w := none, player_ids_w := none }
    else s2
  let s4 :=
    if s3.players_b = some sid then { s3 with players_b := none, player_ids_b := none }
    else s3
  let s5 := { s4 with names := eraseAssoc s4.names sid }
  let s6 : ServerState Pos :=
    match s5.pending_start with
    | some p => if p.fromSid = sid then { s5 with pending_start := none } else s5
    | none => s5
  (s6, overlayEvs ++ [broadcast_state O s6 .plain])

/-- `(x or 'q').lower()` applied character-wise. -/
def strLower (str : String) : String := ⟨str.data.map Char.toLower⟩

/-- Whether the second character list occurs at the head of the first. -/
def startsWithChars : List Char → List Char → Bool
  | _, [] => true
  | [], _ :: _ => false
  | a :: as, b :: bs => a == b && startsWithChars as bs

/-- Whether the second character list occurs contiguously inside the first
(Python's `needle in haystack` on strings). -/
def hasSubChars : List Char → List Char → Bool
  | [], need => need.isEmpty
  | h :: t, need => startsWithChars (h :: t) need || hasSubChars t need

/-- `(data.get('promotion') or 'q').lower()`. -/
def promoOf (promo : Option String) : String :=
  strLower (match promo with
    | none => "q"
    | some p => if p = "" then "q" else p)

/-- The `try`-block of `on_move` (lines 298-304): build the UCI string,
appending the promotion hint only when it is one of `qrbn` and the bare
move parses with a promotion; `none` models the caught exception. -/
def resolveMove (O : Oracle Pos Move) (fromSq toSq promoStr : String) : Option Move :=
  if hasSubChars "qrbn".toList promoStr.toList then
    match O.fromUci (fromSq ++ toSq) with
    | none => none
    | some inner =>
      let suffix := if O.promotionIsSome inner then promoStr else ""
      O.fromUci (fromSq ++ toSq ++ suffix)
  else
    O.fromUci (fromSq ++ toSq)

/-- Terminal handling after a successful push (lines 318-340): the `lastMove`
broadcast has already been built as `moveEv`; then checkmate halts the clock
with a winner overlay, any draw condition halts it with a draw overlay, and
otherwise the clock is (re)started. -/
def afterMove (O : Oracle Pos Move) (s2 : ServerState Pos) (moveEv : Event) :
    ServerState Pos × List Event :=
  if O.isCheckmate s2.board then
    let loser := get_turn O s2
    let wc : Color := if loser = .w then .b else .w
    let wsid := if wc = .w then s2.players_w else s2.players_b
    let wname := lookupName s2.names wsid (if wc = .w then "White" else "Black")
    ({ s2 with timer_running := false },
     [moveEv, Event.overlay (wname ++ " wins by checkmate") (some wname)
        (some wc) (some "By checkmate")])
  else if (O.isGameOver s2.board && !O.isCheckmate s2.board) ||
      O.isStalemate s2.board || O.isInsufficientMaterial s2.board ||
      O.isFivefoldRepetition s2.board || O.isSeventyfiveMoves s2.board ||
      O.canClaimFiftyMoves s2.board || O.canClaimThreefold s2.board then
    ({ s2 with timer_running := false },
     [moveEv, Event.overlay "Draw!" none none none])
  else
    ({ s2 with timer_running := true }, [moveEv])

/-- `on_move`: turn enforcement, parsing, legality, push, increment credit,
`lastMove` broadcast, then terminal handling (checkmate / draw / restart). -/
def on_move (O : Oracle Pos Move) (s : ServerState Pos) (sid : Sid)
    (fromSq toSq : String) (promo : Option String) : ServerState Pos × List Event :=
  let turn := get_turn O s
  if (turn = .w ∧ s.players_w ≠ some sid) ∨ (turn = .b ∧ s.players_b ≠ some sid) then
    (s, [Event.errorMsg sid "Not your turn"])
  else
    match resolveMove O fromSq toSq (promoOf promo) with
    | none => (s, [Event.errorMsg sid "Illegal move"])
    | some mv =>
      if O.isLegal s.board mv then
        let s1 := { s with board := O.push s.board mv }
        let s2 :=
          if turn = .w then { s1 with white_time := s1.white_time + s1.inc_per_move }
          else { s1 with black_time := s1.black_time + s1.inc_per_move }
        afterMove O s2 (broadcast_state O s2 (.lastMove fromSq toSq))
      else (s, [Event.errorMsg sid "Illegal move"])

/-- `on_set_name`: ignore blank names, truncate to 24 characters,
broadcast state. -/
def on_set_name (O : Oracle Pos Move) (s : ServerState Pos) (sid : Sid)
    (name : Option String) : ServerState Pos × List Event :=
  let nm := (name.getD "").trim
  if nm = "" then (s, [])
  else
    let s1 := { s with names := setAssoc s.names sid (nm.take 24) }
    (s1, [broadcast_state O s1 .plain])

/-- `on_propose_start`: refuse while a game runs or an offer is pending;
otherwise create the pending offer and fan the offer out to everyone else. -/
def on_propose_start (_O : Oracle Pos Move) (s : ServerState Pos) (sid : Sid)
    (base inc : Int) : ServerState Pos × List Event :=
  if s.timer_running then (s, [Event.startStatus sid "game_running" none])
  else if s.pending_start.isSome then (s, [Event.startStatus sid "waiting" none])
  else
    let s1 := { s with pending_start := some ⟨sid, base, inc, none⟩ }
    (s1, Event.startStatus sid "waiting" none ::
      (s1.connected_sids.filter (fun x => x ≠ sid)).map
        (fun other => Event.startOffer other (lookupName s1.names (some sid) "Player") base inc))

/-- `on_cancel_start`: only the proposer may cancel; everyone connected is
told the offer was cancelled. -/
def on_cancel_start (_O : Oracle Pos Move) (s : ServerState Pos) (sid : Sid) :
    ServerState Pos × List Event :=
  match s.pending_start with
  | some p =>
    if p.fromSid = sid then
      ({ s with pending_start := none },
       s.connected_sids.map (fun other => Event.startStatus other "cancelled" none))
    else (s, [])
  | none => (s, [])

/-- Seating of proposer and acceptor on a successful claim (lines 439-455):
the proposer keeps its seat (or defaults to white), the acceptor takes the
other seat, and blank display names default to `ChessPlayer`. -/
def acceptSeat (s : ServerState Pos) (proposer sid : Sid) : ServerState Pos :=
  let sA :=
    if s.players_w = some proposer then { s with players_b := some sid }
    else if s.players_b = some proposer then { s with players_w := some sid }
    else { s with players_w := some proposer, players_b := some sid }
  let sB :=
    if (sA.names.lookup proposer).getD "" = "" then
      { sA with names := setAssoc sA.names proposer "ChessPlayer" }
    else sA
  if (sB.names.lookup sid).getD "" = "" then
    { sB with names := setAssoc sB.names sid "ChessPlayer" }
  else sB

/-- `on_respond_start` given the snapshot `ps` of `pending_start` read at
entry (lines 411-412).  The accept path re-reads the live `pending_start`
for the atomic claim-if-empty step (lines 426-433). -/
def respondWithRead (O : Oracle Pos Move) (s : ServerState Pos) (sid : Sid)
    (accept : Bool) (ps : Option Pending) : ServerState Pos × List Event :=
  match ps with
  | none => (s, [Event.startStatus sid "no_pending" none])
  | some psv =>
    let proposer := psv.fromSid
    if accept = false then
      (s, [Event.startStatus proposer "rejected"
             (some (lookupName s.names (some sid) "Opponent")),
           Event.startStatus sid "rejected" none])
    else
      let claim : Option Pending :=
        match s.pending_start with
        | some cur => if cur.opponent = none then some cur else none
        | none => none
      match claim with
      | some cur =>
        let sClaim := { s with pending_start := some { cur with opponent := some sid } }
        let sSeat := acceptSeat sClaim proposer sid
        let r := reset_game O sSeat cur.base cur.inc
        let sNoP := { r.1 with pending_start := none }
        let sFin := { sNoP with timer_running := true }
        (sFin,
         [emit_assign O sSeat proposer false, emit_assign O sSeat sid false] ++
           broadcast_assignments O sSeat false ++ r.2 ++
           [Event.startStatus proposer "accepted" none,
            Event.startStatus sid "accepted" none,
            broadcast_state O sFin .started] ++
           broadcast_assignments O sFin true)
      | none => (s, [Event.startStatus sid "slots_full" none])

/-- `on_respond_start` as executed by one handler in isolation: the snapshot
is the live `pending_start`. -/
def on_respond_start (O : Oracle Pos Move) (s : ServerState Pos) (sid : Sid)
    (accept : Bool) : ServerState Pos × List Event :=
  respondWithRead O s sid accept s.pending_start

/-- `on_forfeit`: stops the timer unconditionally, then either emits the
forfeit overlay (seated sender) or an error (spectator), and always
broadcasts an `over` state. -/
def on_forfeit (O : Oracle Pos Move) (s : ServerState Pos) (sid : Sid) :
    ServerState Pos × List Event :=
  let s1 := { s with timer_running := false }
  if s1.players_w = some sid ∨ s1.players_b = some sid then
    let wc : Color := if s1.players_w = some sid then .b else .w
    let wsid := if wc = .w then s1.players_w else s1.players_b
    let wname := lookupName s1.names wsid (if wc = .w then "White" else "Black")
    (s1, [Event.overlay (wname ++ " wins by forfeit") (some wname) (some wc)
            (some "By forfeit"),
          broadcast_state O s1 .overTrue])
  else
    (s1, [Event.errorMsg sid "Spectators cannot forfeit",
          broadcast_state O s1 .overTrue])

/-- `on_hard_reset`: stop the timer, drop a pending offer, `reset_game(2, 0)`,
then re-broadcast assignments. -/
def on_hard_reset (O : Oracle Pos Move) (s : ServerState Pos) :
    ServerState Pos × List Event :=
  let s1 := { s with timer_running := false, pending_start := none }
  let r := reset_game O s1 2 0
  (r.1, r.2 ++ broadcast_assignments O r.1 false)

/-- One iteration of `_timer_loop` (lines 92-108): when running, halt on a
terminal board, else decrement the side to move clamped at zero, emitting
the time-out overlay when the clamped value is exactly zero, then broadcast. -/
def timer_tick (O : Oracle Pos Move) (s : ServerState Pos) :
    ServerState Pos × List Event :=
  if s.timer_running then
    if O.isGameOver s.board then ({ s with timer_running := false }, [])
    else if O.turnIsWhite s.board then
      let wt := max 0 (s.white_time - 1)
      if wt = 0 then
        let s2 := { s with white_time := wt, timer_running := false }
        (s2, [Event.overlay "Black wins on time!" none none none,
              broadcast_state O s2 .plain])
      else
        let s1 := { s with white_time := wt }
        (s1, [broadcast_state O s1 .plain])
    else
      let bt := max 0 (s.black_time - 1)
      if bt = 0 then
        let s2 := { s with black_time := bt, timer_running := false }
        (s2, [Event.overlay "White wins on time!" none none none,
              broadcast_state O s2 .plain])
      else
        let s1 := { s with black_time := bt }
        (s1, [broadcast_state O s1 .plain])
  else (s, [])

/-- A client-visible action of the system: one inbound message (with its
payload), a connect/disconnect notification, or one clock tick. -/
inductive Act where
  | connect (sid : Sid)
  | identify (sid : Sid) (playerId : Option Pid)
  | disconnect (sid : Sid)
  | setTimeControl (base inc : Int)
  | start
  | move (sid : Sid) (fromSq toSq : String) (promo : Option String)
  | setName (sid : Sid) (name : Option String)
  | proposeStart (sid : Sid) (base inc : Int)
  | cancelStart (sid : Sid)
  | respondStart (sid : Sid) (accept : Bool)
  | forfeit (sid : Sid)
  | hardReset
  | tick

/-- Dispatch an action to its handler. -/
def stepAct (O : Oracle Pos Move) (s : ServerState Pos) :
    Act → ServerState Pos × List Event
  | .connect sid => on_connect O s sid
  | .identify sid pid => on_identify O s sid pid
  | .disconnect sid => on_disconnect O s sid
  | .setTimeControl base inc => on_set_time_control O s base inc
  | .start => on_start O s
  | .move sid f t p => on_move O s sid f t p
  | .setName sid nm => on_set_name O s sid nm
  | .proposeStart sid base inc => on_propose_start O s sid base inc
  | .cancelStart sid => on_cancel_start O s sid
  | .respondStart sid accept => on_respond_start O s sid accept
  | .forfeit sid => on_forfeit O s sid
  | .hardReset => on_hard_reset O s
  | .tick => timer_tick O s

/-- Actions restricted to non-negative time-control inputs. -/
def NonnegAct : Act → Prop
  | .setTimeControl base inc => 0 ≤ base ∧ 0 ≤ inc
  | .proposeStart _ base inc => 0 ≤ base ∧ 0 ≤ inc
  | _ => True

end Model

/-- States reachable from the initial module state by actions satisfying
`P` (handlers execute atomically in some interleaving order). -/
inductive ReachableP {Pos Move : Type} (O : Oracle Pos Move) (P : Act → Prop) :
    ServerState Pos → Prop where
  | init : ReachableP O P (initialState O)
  | step {s : ServerState Pos} {a : Act} :
      ReachableP O P s → P a → ReachableP O P (stepAct O s a).1


/-! ## Concrete instantiation used to exercise the model -/

/-- A small executable instantiation of the external engine: positions are
move counters, every 4-character-or-longer UCI string parses, every parsed
move is legal, and no terminal condition ever holds. -/
def trivOracle : Oracle Nat Nat :=
  { startPos := 0
    turnIsWhite := fun p => p % 2 == 0
    fen := fun p => toString p
    fromUci := fun str => if 4 ≤ str.length then some str.length else none
    promotionIsSome := fun _ => false
    isLegal := fun _ _ => true
    push := fun p _ => p + 1
    isGameOver := fun _ => false
    isCheckmate := fun _ => false
    isStalemate := fun _ => false
    isInsufficientMaterial := fun _ => false
    isFivefoldRepetition := fun _ => false
    isSeventyfiveMoves := fun _ => false
    canClaimFiftyMoves := fun _ => false
    canClaimThreefold := fun _ => false }

/-- A mid-match state: sids 1 (white) and 2 (black) seated and identified,
sid 3 a spectator, clock running. -/
def matchState : ServerState Nat :=
  { board := 0
    players_w := some 1
    players_b := some 2
    player_ids_w := some "P1"
    player_ids_b := some "P2"
    sid_to_player_id := [(1, "P1"), (2, "P2")]
    names := [(1, "Alice"), (2, "Bob")]
    connected_sids := [1, 2, 3]
    white_time := 120
    black_time := 120
    inc_per_move := 0
    timer_running := true
    pending_start := none }

/-! ## C10: setTimeControl is unconditional -/

/-- C10: for every state — any sender, even mid-match — a `setTimeControl`
message unconditionally halts the clock, restores the starting position,
and sets both clocks to `baseMins*60` (and the increment to `inc`); the
handler performs no precondition check on the sender's seat or on match
activity. -/
theorem c10_setTimeControl_unconditional {Pos Move : Type} (O : Oracle Pos Move)
    (s : ServerState Pos) (base inc : Int) :
    (on_set_time_control O s base inc).1.board = O.startPos ∧
    (on_set_time_control O s base inc).1.white_time = base * 60 ∧
    (on_set_time_control O s base inc).1.black_time = base * 60 ∧
    (on_set_time_control O s base inc).1.inc_per_move = inc ∧
    (on_set_time_control O s base inc).1.timer_running = false := by
  simp [on_set_time_control, reset_game]

/-! ## C4: out-of-turn and spectator moves are rejected without mutation -/

/-- C4: a move request whose sender does not occupy the side-to-move seat
(including every spectator) is answered with the `Not your turn` error and
the state is returned unchanged. -/
theorem c4_not_your_turn_rejected {Pos Move : Type} (O : Oracle Pos Move)
    (s : ServerState Pos) (sid : Sid) (fromSq toSq : String) (promo : Option String)
    (h : (get_turn O s = .w ∧ s.players_w ≠ some sid) ∨
         (get_turn O s = .b ∧ s.players_b ≠ some sid)) :
    on_move O s sid fromSq toSq promo = (s, [Event.errorMsg sid "Not your turn"]) := by
  unfold on_move
  rw [if_pos h]

/-- Witness for C4: in the concrete mid-match state (white to move, seat
held by sid 1), a move sent by the spectator sid 3 is rejected unchanged. -/
theorem c4_witness :
    on_move trivOracle matchState 3 "e2" "e4" none =
      (matchState, [Event.errorMsg 3 "Not your turn"]) :=
  c4_not_your_turn_rejected trivOracle matchState 3 "e2" "e4" none
    (Or.inl ⟨by decide, by decide⟩)

/-! ## C2: disconnect of a seated player during a running match -/

/-- C2: if a seat-occupying connection disconnects while the match clock is
running, the clock is halted and exactly one termination overlay is
broadcast, declaring the opposite seat's occupant the winner with reason
`Opponent disconnected` (followed only by the routine state broadcast). -/
theorem c2_disconnect_terminates {Pos Move : Type} (O : Oracle Pos Move)
    (s : ServerState Pos) (sid : Sid)
    (hseat : s.players_w = some sid ∨ s.players_b = some sid)
    (hrun : s.timer_running = true) :
    (on_disconnect O s sid).1.timer_running = false ∧
    (s.players_w = some sid →
      (on_disconnect O s sid).2 =
        [Event.overlay (lookupName s.names s.players_b "Black" ++ " wins - opponent disconnected")
           (some (lookupName s.names s.players_b "Black")) (some Color.b)
           (some "Opponent disconnected"),
         broadcast_state O (on_disconnect O s sid).1 .plain]) ∧
    (s.players_w ≠ some sid →
      (on_disconnect O s sid).2 =
        [Event.overlay (lookupName s.names s.players_w "White" ++ " wins - opponent disconnected")
           (some (lookupName s.names s.players_w "White")) (some Color.w)
           (some "Opponent disconnected"),
         broadcast_state O (on_disconnect O s sid).1 .plain]) := by
  by_cases hw : s.players_w = some sid <;>
    by_cases hb : s.players_b = some sid <;>
    rcases hp : s.pending_start with _ | p <;>
    first
      | exact (hseat.elim (fun h => absurd h hw) (fun h => absurd h hb))
      | (by_cases hf : p.fromSid = sid <;> simp [on_disconnect, hw, hb, hp, hf, hrun])
      | simp [on_disconnect, hw, hb, hp, hrun]

/-- Witness for C2: black (sid 2) disconnects mid-match; the clock halts and
the single overlay names Alice (white) winner for `Opponent disconnected`. -/
theorem c2_witness :
    (on_disconnect trivOracle matchState 2).1.timer_running = false ∧
    (matchState.players_w = some 2 →
      (on_disconnect trivOracle matchState 2).2 =
        [Event.overlay (lookupName matchState.names matchState.players_b "Black" ++ " wins - opponent disconnected")
           (some (lookupName matchState.names matchState.players_b "Black")) (some Color.b)
           (some "Opponent disconnected"),
         broadcast_state trivOracle (on_disconnect trivOracle matchState 2).1 .plain]) ∧
    (matchState.players_w ≠ some 2 →
      (on_disconnect trivOracle matchState 2).2 =
        [Event.overlay (lookupName matchState.names matchState.players_w "White" ++ " wins - opponent disconnected")
           (some (lookupName matchState.names matchState.players_w "White")) (some Color.w)
           (some "Opponent disconnected"),
         broadcast_state trivOracle (on_disconnect trivOracle matchState 2).1 .plain]) :=
  c2_disconnect_terminates trivOracle matchState 2 (Or.inr (by decide)) (by decide)

/-! ## C9: forfeit sent by a spectator -/

/-- C9 (code bug evaluation): in the concrete mid-match state, a `forfeit`
from the spectator sid 3 does produce the rejection error, but the handler
runs `stop_timer()` before the seat check, so the running clock is halted
and an `over` state is broadcast — the spectator's message mutates the
match clock status. -/
theorem c9_spectator_forfeit_stops_clock :
    matchState.timer_running = true ∧
    matchState.players_w ≠ some 3 ∧ matchState.players_b ≠ some 3 ∧
    (on_forfeit trivOracle matchState 3).1.timer_running = false ∧
    (on_forfeit trivOracle matchState 3).2 =
      [Event.errorMsg 3 "Spectators cannot forfeit",
       broadcast_state trivOracle { matchState with timer_running := false } .overTrue] := by
  exact ⟨rfl, by decide, by decide, rfl, by decide⟩

/-! ## C6: every reset yields the fresh starting state -/

/-- C6: `reset_game` always yields the starting position, both clocks at
`base*60`, and a halted clock; `setTimeControl` is exactly `reset_game`;
`hardReset` is `reset_game(2, 0)` after clearing the offer; and the
accepted-handshake path routes through `reset_game` with the offer's time
control (the handler then clears the offer and starts the clock, so the
final position and clocks are the freshly reset ones). -/
theorem c6_reset_postconditions :
    (∀ {Pos Move : Type} (O : Oracle Pos Move) (s : ServerState Pos) (base inc : Int),
       (reset_game O s base inc).1.board = O.startPos ∧
       (reset_game O s base inc).1.white_time = base * 60 ∧
       (reset_game O s base inc).1.black_time = base * 60 ∧
       (reset_game O s base inc).1.timer_running = false) ∧
    (∀ {Pos Move : Type} (O : Oracle Pos Move) (s : ServerState Pos) (base inc : Int),
       on_set_time_control O s base inc = reset_game O s base inc) ∧
    (∀ {Pos Move : Type} (O : Oracle Pos Move) (s : ServerState Pos),
       (on_hard_reset O s).1 =
         (reset_game O { s with timer_running := false, pending_start := none } 2 0).1) ∧
    (∀ {Pos Move : Type} (O : Oracle Pos Move) (s : ServerState Pos) (sid : Sid)
       (offer : Pending), s.pending_start = some offer → offer.opponent = none →
       (on_respond_start O s sid true).1 =
         { (reset_game O
             (acceptSeat { s with pending_start := some { offer with opponent := some sid } }
               offer.fromSid sid)
             offer.base offer.inc).1
           with pending_start := none, timer_running := true } ∧
       (on_respond_start O s sid true).1.board = O.startPos ∧
       (on_respond_start O s sid true).1.white_time = offer.base * 60 ∧
       (on_respond_start O s sid true).1.black_time = offer.base * 60) := by
  refine ⟨?_, ?_, ?_, ?_⟩
  · intro Pos Move O s base inc
    simp [reset_game]
  · intro Pos Move O s base inc
    rfl
  · intro Pos Move O s
    rfl
  · intro Pos Move O s sid offer hp hop
    refine ⟨?_, ?_, ?_, ?_⟩ <;>
      simp [on_respond_start, respondWithRead, hp, hop, reset_game]

/-- A lobby state: sid 1 proposed a 3+2 game, sid 2 and 3 are connected,
nobody has accepted yet, no game running. -/
def lobbyOfferState : ServerState Nat :=
  { board := 0
    players_w := some 1
    players_b := none
    player_ids_w := some "P1"
    player_ids_b := none
    sid_to_player_id := [(1, "P1")]
    names := [(1, "Alice")]
    connected_sids := [1, 2, 3]
    white_time := 120
    black_time := 120
    inc_per_move := 0
    timer_running := false
    pending_start := some ⟨1, 3, 2, none⟩ }

/-- Witness for C6: sid 2 accepts the pending 3-minute offer; the resulting
state is the reset one (with the offer cleared and the clock then started),
with the start position and both clocks at `3*60`. -/
theorem c6_witness :
    (on_respond_start trivOracle lobbyOfferState 2 true).1 =
      { (reset_game trivOracle
          (acceptSeat
            { lobbyOfferState with
              pending_start := some { (⟨1, 3, 2, none⟩ : Pending) with opponent := some 2 } }
            1 2)
          3 2).1
        with pending_start := none, timer_running := true } ∧
    (on_respond_start trivOracle lobbyOfferState 2 true).1.board = trivOracle.startPos ∧
    (on_respond_start trivOracle lobbyOfferState 2 true).1.white_time = (3 : Int) * 60 ∧
    (on_respond_start trivOracle lobbyOfferState 2 true).1.black_time = (3 : Int) * 60 :=
  c6_reset_postconditions.2.2.2 trivOracle lobbyOfferState 2 ⟨1, 3, 2, none⟩ rfl rfl

/-! ## C1: first acceptor claims the slot, later acceptors get slots_full -/

/-- C1: with a pending offer whose opponent slot is empty, two distinct
connections both read the offer and respond `accept=true`; the lock
serializes their claim steps.  The first acceptor `a` claims the slot (it
ends up seated and both principals are acknowledged `accepted`), the offer
is consumed, and the later acceptor `b` — whatever offer snapshot it read —
receives exactly `slots_full` and changes nothing, so `a` is the only
acceptor ever recorded. -/
theorem c1_first_acceptor_wins {Pos Move : Type} (O : Oracle Pos Move)
    (s : ServerState Pos) (a b : Sid) (offer oB : Pending)
    (hp : s.pending_start = some offer) (hop : offer.opponent = none) (hab : a ≠ b) :
    (Event.startStatus a "accepted" none) ∈ (respondWithRead O s a true (some offer)).2 ∧
    (Event.startStatus offer.fromSid "accepted" none) ∈ (respondWithRead O s a true (some offer)).2 ∧
    (respondWithRead O s a true (some offer)).1.pending_start = none ∧
    ((respondWithRead O s a true (some offer)).1.players_w = some a ∨
     (respondWithRead O s a true (some offer)).1.players_b = some a) ∧
    respondWithRead O (respondWithRead O s a true (some offer)).1 b true (some oB) =
      ((respondWithRead O s a true (some offer)).1,
       [Event.startStatus b "slots_full" none]) := by
  have hpend : (respondWithRead O s a true (some offer)).1.pending_start = none := by
    simp [respondWithRead, hp, hop, reset_game]
  refine ⟨?_, ?_, hpend, ?_, ?_⟩
  · simp [respondWithRead, hp, hop, reset_game]
  · simp [respondWithRead, hp, hop, reset_game]
  · by_cases hw : s.players_w = some offer.fromSid
    · (simp [respondWithRead, hp, hop, reset_game, acceptSeat, hw]) <;>
        (split_ifs <;> simp)
    · by_cases hb2 : s.players_b = some offer.fromSid <;>
        ((simp [respondWithRead, hp, hop, reset_game, acceptSeat, hw, hb2]) <;>
          (split_ifs <;> simp))
  · simp [respondWithRead, hp, hop, reset_game]

/-- Witness for C1: sid 2 accepts the pending 3+2 offer first, sid 3 second;
sid 2 and the proposer get `accepted`, the offer is consumed, and sid 3 gets
exactly `slots_full`. -/
theorem c1_witness :
    (Event.startStatus 2 "accepted" none) ∈
      (respondWithRead trivOracle lobbyOfferState 2 true (some ⟨1, 3, 2, none⟩)).2 ∧
    (Event.startStatus 1 "accepted" none) ∈
      (respondWithRead trivOracle lobbyOfferState 2 true (some ⟨1, 3, 2, none⟩)).2 ∧
    (respondWithRead trivOracle lobbyOfferState 2 true (some ⟨1, 3, 2, none⟩)).1.pending_start
      = none ∧
    ((respondWithRead trivOracle lobbyOfferState 2 true (some ⟨1, 3, 2, none⟩)).1.players_w
        = some 2 ∨
     (respondWithRead trivOracle lobbyOfferState 2 true (some ⟨1, 3, 2, none⟩)).1.players_b
        = some 2) ∧
    respondWithRead trivOracle
        (respondWithRead trivOracle lobbyOfferState 2 true (some ⟨1, 3, 2, none⟩)).1 3 true
        (some ⟨1, 3, 2, none⟩) =
      ((respondWithRead trivOracle lobbyOfferState 2 true (some ⟨1, 3, 2, none⟩)).1,
       [Event.startStatus 3 "slots_full" none]) :=
  c1_first_acceptor_wins trivOracle lobbyOfferState 2 3 ⟨1, 3, 2, none⟩ ⟨1, 3, 2, none⟩
    rfl rfl (by decide)

/-! ## C7: rejection of a pending offer -/

/-- C7 counterexample: sid 2 rejects the pending offer; contrary to the
claim the offer is NOT consumed — it is still pending afterwards, and sid 3
can then accept it (the proposer receives `accepted`) without any fresh
propose. -/
theorem c7_counterexample :
    (on_respond_start trivOracle lobbyOfferState 2 false).1.pending_start =
      some ⟨1, 3, 2, none⟩ ∧
    (Event.startStatus 1 "accepted" none) ∈
      (on_respond_start trivOracle
        (on_respond_start trivOracle lobbyOfferState 2 false).1 3 true).2 :=
  ⟨rfl, by decide⟩

/-- C7 amended: a `respondStart(accept=false)` against a pending offer
notifies the proposer of the rejection with the responder's name (and the
responder too), and leaves the state entirely unchanged — in particular the
offer is NOT consumed, so a later acceptance needs no fresh propose. -/
theorem c7_reject_notifies_and_keeps_offer {Pos Move : Type} (O : Oracle Pos Move)
    (s : ServerState Pos) (sid : Sid) (offer : Pending)
    (hp : s.pending_start = some offer) :
    on_respond_start O s sid false =
      (s, [Event.startStatus offer.fromSid "rejected"
             (some (lookupName s.names (some sid) "Opponent")),
           Event.startStatus sid "rejected" none]) := by
  simp [on_respond_start, respondWithRead, hp]

/-- Witness for C7's amended theorem at the concrete lobby state. -/
theorem c7_witness :
    on_respond_start trivOracle lobbyOfferState 2 false =
      (lobbyOfferState,
       [Event.startStatus 1 "rejected"
          (some (lookupName lobbyOfferState.names (some 2) "Opponent")),
        Event.startStatus 2 "rejected" none]) :=
  c7_reject_notifies_and_keeps_offer trivOracle lobbyOfferState 2 ⟨1, 3, 2, none⟩ rfl

/-! ## C3: move application agrees with the oracle; failures do not mutate -/

/-- `afterMove` never changes the position. -/
theorem afterMove_board {Pos Move : Type} (O : Oracle Pos Move)
    (t : ServerState Pos) (e : Event) : (afterMove O t e).1.board = t.board := by
  unfold afterMove
  split_ifs <;> rfl

/-- `afterMove` never changes white's clock. -/
theorem afterMove_white {Pos Move : Type} (O : Oracle Pos Move)
    (t : ServerState Pos) (e : Event) : (afterMove O t e).1.white_time = t.white_time := by
  unfold afterMove
  split_ifs <;> rfl

/-- `afterMove` never changes black's clock. -/
theorem afterMove_black {Pos Move : Type} (O : Oracle Pos Move)
    (t : ServerState Pos) (e : Event) : (afterMove O t e).1.black_time = t.black_time := by
  unfold afterMove
  split_ifs <;> rfl

/-- The move broadcast is always emitted by `afterMove`. -/
theorem afterMove_mem {Pos Move : Type} (O : Oracle Pos Move)
    (t : ServerState Pos) (e : Event) : e ∈ (afterMove O t e).2 := by
  unfold afterMove
  split_ifs <;> simp

/-- C3: when the sender occupies the side-to-move seat: a move that parses
and is legal per the oracle replaces the position by the oracle's push
result, credits the mover's seat with the increment (the other clock
untouched), and a state broadcast carrying the move's coordinates is sent;
a malformed or illegal move leaves the state unchanged and produces only
the `Illegal move` error — no state broadcast. -/
theorem c3_move_follows_oracle {Pos Move : Type} (O : Oracle Pos Move)
    (s : ServerState Pos) (sid : Sid) (fromSq toSq : String) (promo : Option String)
    (hw : get_turn O s = .w → s.players_w = some sid)
    (hb : get_turn O s = .b → s.players_b = some sid) :
    (∀ mv, resolveMove O fromSq toSq (promoOf promo) = some mv →
       O.isLegal s.board mv = true →
       (on_move O s sid fromSq toSq promo).1.board = O.push s.board mv ∧
       (get_turn O s = .w →
         (on_move O s sid fromSq toSq promo).1.white_time = s.white_time + s.inc_per_move ∧
         (on_move O s sid fromSq toSq promo).1.black_time = s.black_time) ∧
       (get_turn O s = .b →
         (on_move O s sid fromSq toSq promo).1.black_time = s.black_time + s.inc_per_move ∧
         (on_move O s sid fromSq toSq promo).1.white_time = s.white_time) ∧
       (∃ p, Event.stateB p (.lastMove fromSq toSq) ∈ (on_move O s sid fromSq toSq promo).2)) ∧
    (resolveMove O fromSq toSq (promoOf promo) = none →
       on_move O s sid fromSq toSq promo = (s, [Event.errorMsg sid "Illegal move"])) ∧
    (∀ mv, resolveMove O fromSq toSq (promoOf promo) = some mv →
       O.isLegal s.board mv = false →
       on_move O s sid fromSq toSq promo = (s, [Event.errorMsg sid "Illegal move"])) := by
  have hguard : ¬((get_turn O s = Color.w ∧ s.players_w ≠ some sid) ∨
      (get_turn O s = Color.b ∧ s.players_b ≠ some sid)) := by
    rintro (⟨h1, h2⟩ | ⟨h1, h2⟩)
    · exact h2 (hw h1)
    · exact h2 (hb h1)
  refine ⟨?_, ?_, ?_⟩
  · intro mv hres hleg
    refine ⟨?_, ?_, ?_, ?_⟩
    · simp only [on_move, if_neg hguard, hres, hleg, if_true, afterMove_board]
      split_ifs <;> rfl
    · intro htw
      constructor <;>
        · simp only [on_move, if_neg hguard, hres, hleg, if_true, afterMove_white,
            afterMove_black]
          rw [if_pos htw]
    · intro htb
      have hne : ¬(get_turn O s = Color.w) := by
        rw [htb]
        decide
      constructor <;>
        · simp only [on_move, if_neg hguard, hres, hleg, if_true, afterMove_white,
            afterMove_black]
          rw [if_neg hne]
    · simp only [on_move, if_neg hguard, hres, hleg, if_true]
      exact ⟨_, afterMove_mem O _ _⟩
  · intro hres
    simp only [on_move, if_neg hguard, hres]
  · intro mv hres hleg
    simp only [on_move, if_neg hguard, hres, hleg, if_false, Bool.false_eq_true]

/-- Witness for C3: in the concrete mid-match state, white (sid 1) plays
`e2e4`; the position is the oracle's push result, the increment is credited
to white, and the `lastMove` broadcast goes out. -/
theorem c3_witness :
    (on_move trivOracle matchState 1 "e2" "e4" none).1.board =
      trivOracle.push matchState.board 4 ∧
    (get_turn trivOracle matchState = .w →
      (on_move trivOracle matchState 1 "e2" "e4" none).1.white_time =
        matchState.white_time + matchState.inc_per_move ∧
      (on_move trivOracle matchState 1 "e2" "e4" none).1.black_time =
        matchState.black_time) ∧
    (get_turn trivOracle matchState = .b →
      (on_move trivOracle matchState 1 "e2" "e4" none).1.black_time =
        matchState.black_time + matchState.inc_per_move ∧
      (on_move trivOracle matchState 1 "e2" "e4" none).1.white_time =
        matchState.white_time) ∧
    (∃ p, Event.stateB p (.lastMove "e2" "e4") ∈
      (on_move trivOracle matchState 1 "e2" "e4" none).2) :=
  (c3_move_follows_oracle trivOracle matchState 1 "e2" "e4" none
      (fun _ => rfl) (fun h => absurd h (by decide))).1 4 rfl rfl

/-! ## C8: reconnection by identity -/

/-- Run: sid 1 identifies as "P1" (gets white), sid 2 as "P2" (gets black). -/
def c8_s2 : ServerState Nat :=
  (on_identify trivOracle
    (on_identify trivOracle (initialState trivOracle) 1 (some "P1")).1 2 (some "P2")).1

/-- ... then both disconnect (no match running). -/
def c8_s4 : ServerState Nat :=
  (on_disconnect trivOracle (on_disconnect trivOracle c8_s2 1).1 2).1

/-- ... then a fresh connection sid 3 identifies with "P2". -/
def c8_s5 : ServerState Nat :=
  (on_identify trivOracle c8_s4 3 (some "P2")).1

/-- C8 counterexample: identity "P2" last occupied the black seat and its
connection disconnected with no match active; yet when sid 3 presents "P2"
it is NOT restored to black — the disconnect erased the remembered
identity (`c8_s4` has no recorded ids), so sid 3 is seated as white by the
fresh-assignment policy. -/
theorem c8_counterexample :
    c8_s2.players_b = some 2 ∧ c8_s2.player_ids_b = some "P2" ∧
    c8_s4.timer_running = false ∧
    c8_s4.player_ids_w = none ∧ c8_s4.player_ids_b = none ∧
    c8_s5.players_w = some 3 ∧ c8_s5.players_b ≠ some 3 := by
  decide

/-- C8 amended: identity-based seat restoration works exactly while the
identity is still recorded for the seat (it survives resets, but
`on_disconnect` erases it): with no match running, an `identify` bearing a
recorded identity re-binds that seat to the new connection — white checked
first — while a disconnect of a seat occupant erases the seat's recorded
identity, so no identity-based restoration happens after such a disconnect. -/
theorem c8_restore_only_while_recorded {Pos Move : Type} (O : Oracle Pos Move)
    (s : ServerState Pos) (sid : Sid) (pid : Pid)
    (hrun : s.timer_running = false) (hpid : pid ≠ "") :
    (s.player_ids_w = some pid →
       (on_identify O s sid (some pid)).1.players_w = some sid ∧
       (on_identify O s sid (some pid)).1.player_ids_w = s.player_ids_w) ∧
    (s.player_ids_w ≠ some pid → s.player_ids_b = some pid →
       (on_identify O s sid (some pid)).1.players_b = some sid ∧
       (on_identify O s sid (some pid)).1.player_ids_b = s.player_ids_b) ∧
    (∀ sid2 : Sid, s.players_w = some sid2 →
       (on_disconnect O s sid2).1.player_ids_w = none) := by
  refine ⟨?_, ?_, ?_⟩
  · intro hw0
    simp [on_identify, restoredColor, hpid, hrun, hw0]
  · intro hw0 hb0
    simp [on_identify, restoredColor, hpid, hrun, hw0, hb0]
  · intro sid2 hw2
    by_cases hb2 : s.players_b = some sid2 <;>
      rcases hp : s.pending_start with _ | p <;>
      first
        | (by_cases hf : p.fromSid = sid2 <;>
            simp [on_disconnect, hw2, hb2, hp, hf, hrun])
        | simp [on_disconnect, hw2, hb2, hp, hrun]

/-- Witness for C8's amended theorem: sid 9 identifies with the still
recorded "P1" in the lobby-offer state and is restored to white; and a
disconnect of the white occupant erases the recorded identity. -/
theorem c8_witness :
    (lobbyOfferState.player_ids_w = some "P1" →
       (on_identify trivOracle lobbyOfferState 9 (some "P1")).1.players_w = some 9 ∧
       (on_identify trivOracle lobbyOfferState 9 (some "P1")).1.player_ids_w =
         lobbyOfferState.player_ids_w) ∧
    (lobbyOfferState.player_ids_w ≠ some "P1" → lobbyOfferState.player_ids_b = some "P1" →
       (on_identify trivOracle lobbyOfferState 9 (some "P1")).1.players_b = some 9 ∧
       (on_identify trivOracle lobbyOfferState 9 (some "P1")).1.player_ids_b =
         lobbyOfferState.player_ids_b) ∧
    (∀ sid2 : Sid, lobbyOfferState.players_w = some sid2 →
       (on_disconnect trivOracle lobbyOfferState sid2).1.player_ids_w = none) :=
  c8_restore_only_while_recorded trivOracle lobbyOfferState 9 "P1" rfl (by decide)

/-! ## C5: clock non-negativity and time-out termination -/

/-- `afterMove` never changes the pending offer. -/
theorem afterMove_pending {Pos Move : Type} (O : Oracle Pos Move)
    (t : ServerState Pos) (e : Event) :
    (afterMove O t e).1.pending_start = t.pending_start := by
  unfold afterMove
  split_ifs <;> rfl

/-- `on_identify` touches neither clocks, increment, nor the pending offer. -/
theorem on_identify_preserves {Pos Move : Type} (O : Oracle Pos Move)
    (s : ServerState Pos) (sid : Sid) (pid : Option Pid) :
    (on_identify O s sid pid).1.white_time = s.white_time ∧
    (on_identify O s sid pid).1.black_time = s.black_time ∧
    (on_identify O s sid pid).1.inc_per_move = s.inc_per_move ∧
    (on_identify O s sid pid).1.pending_start = s.pending_start := by
  rcases pid with _ | p
  · simp [on_identify]
  · by_cases hp : p = ""
    · simp [on_identify, hp]
    · rcases hc : restoredColor
          { s with sid_to_player_id := setAssoc s.sid_to_player_id sid p } p with _ | c
      · simp only [on_identify, hp, if_false, hc]
        split_ifs <;> simp
      · cases c <;> simp [on_identify, hp, hc]

/-- `on_disconnect` touches neither clocks nor increment; the pending offer
is either kept or cleared. -/
theorem on_disconnect_preserves {Pos Move : Type} (O : Oracle Pos Move)
    (s : ServerState Pos) (sid : Sid) :
    (on_disconnect O s sid).1.white_time = s.white_time ∧
    (on_disconnect O s sid).1.black_time = s.black_time ∧
    (on_disconnect O s sid).1.inc_per_move = s.inc_per_move ∧
    ((on_disconnect O s sid).1.pending_start = s.pending_start ∨
     (on_disconnect O s sid).1.pending_start = none) := by
  by_cases hw : s.players_w = some sid <;>
    by_cases hb : s.players_b = some sid <;>
    by_cases ht : s.timer_running <;>
    rcases hp : s.pending_start with _ | p <;>
    first
      | (by_cases hf : p.fromSid = sid <;>
          simp [on_disconnect, hw, hb, ht, hp, hf])
      | simp [on_disconnect, hw, hb, ht, hp]

/-- The clock/offer invariant maintained by every handler under non-negative
time-control inputs: both clocks and the increment are non-negative, and a
pending offer stores non-negative time controls. -/
def TimeInv {Pos : Type} (s : ServerState Pos) : Prop :=
  0 ≤ s.white_time ∧ 0 ≤ s.black_time ∧ 0 ≤ s.inc_per_move ∧
  (∀ p : Pending, s.pending_start = some p → 0 ≤ p.base ∧ 0 ≤ p.inc)

/-- One step of any action with non-negative inputs preserves `TimeInv`. -/
theorem timeInv_step {Pos Move : Type} (O : Oracle Pos Move) (s : ServerState Pos)
    (a : Act) (h : TimeInv s) (ha : NonnegAct a) : TimeInv (stepAct O s a).1 := by
  obtain ⟨h1, h2, h3, h4⟩ := h
  cases a with
  | connect sid => exact ⟨h1, h2, h3, h4⟩
  | identify sid pid =>
    obtain ⟨e1, e2, e3, e4⟩ := on_identify_preserves O s sid pid
    refine ⟨?_, ?_, ?_, ?_⟩
    · rw [show (stepAct O s (.identify sid pid)).1 = (on_identify O s sid pid).1 from rfl, e1]
      exact h1
    · rw [show (stepAct O s (.identify sid pid)).1 = (on_identify O s sid pid).1 from rfl, e2]
      exact h2
    · rw [show (stepAct O s (.identify sid pid)).1 = (on_identify O s sid pid).1 from rfl, e3]
      exact h3
    · intro p hp
      rw [show (stepAct O s (.identify sid pid)).1 = (on_identify O s sid pid).1 from rfl, e4] at hp
      exact h4 p hp
  | disconnect sid =>
    obtain ⟨e1, e2, e3, e4⟩ := on_disconnect_preserves O s sid
    refine ⟨?_, ?_, ?_, ?_⟩
    · rw [show (stepAct O s (.disconnect sid)).1 = (on_disconnect O s sid).1 from rfl, e1]
      exact h1
    · rw [show (stepAct O s (.disconnect sid)).1 = (on_disconnect O s sid).1 from rfl, e2]
      exact h2
    · rw [show (stepAct O s (.disconnect sid)).1 = (on_disconnect O s sid).1 from rfl, e3]
      exact h3
    · intro p hp
      rw [show (stepAct O s (.disconnect sid)).1 = (on_disconnect O s sid).1 from rfl] at hp
      rcases e4 with e4 | e4
      · rw [e4] at hp
        exact h4 p hp
      · rw [e4] at hp
        exact Option.noConfusion hp
  | setTimeControl base inc =>
    obtain ⟨hbase, hinc⟩ := ha
    refine ⟨mul_nonneg hbase (by norm_num), mul_nonneg hbase (by norm_num), hinc, ?_⟩
    intro p hp
    exact h4 p hp
  | start =>
    show TimeInv (on_start O s).1
    unfold on_start
    split_ifs <;> exact ⟨h1, h2, h3, h4⟩
  | move sid f t pr =>
    show TimeInv (on_move O s sid f t pr).1
    simp only [on_move]
    split
    · exact ⟨h1, h2, h3, h4⟩
    · split
      · exact ⟨h1, h2, h3, h4⟩
      · split
        · refine ⟨?_, ?_, ?_, ?_⟩
          · rw [afterMove_white]
            split_ifs
            · exact add_nonneg h1 h3
            · exact h1
          · rw [afterMove_black]
            split_ifs
            · exact h2
            · exact add_nonneg h2 h3
          · rw [show ∀ u v, (afterMove O u v).1.inc_per_move = u.inc_per_move from
              fun u v => by unfold afterMove; split_ifs <;> rfl]
            split_ifs <;> exact h3
          · intro p hp
            rw [afterMove_pending] at hp
            refine h4 p ?_
            rcases hp' : get_turn O s with _ | _ | _ <;> simp [hp'] at hp <;> exact hp
        · exact ⟨h1, h2, h3, h4⟩
  | setName sid nm =>
    show TimeInv (on_set_name O s sid nm).1
    simp only [on_set_name]
    split_ifs <;> exact ⟨h1, h2, h3, h4⟩
  | proposeStart sid base inc =>
    obtain ⟨hbase, hinc⟩ := ha
    show TimeInv (on_propose_start O s sid base inc).1
    unfold on_propose_start
    split_ifs
    · exact ⟨h1, h2, h3, h4⟩
    · exact ⟨h1, h2, h3, h4⟩
    · refine ⟨h1, h2, h3, ?_⟩
      intro p hp
      have hinj := Option.some.inj hp
      cases hinj
      exact ⟨hbase, hinc⟩
  | cancelStart sid =>
    show TimeInv (on_cancel_start O s sid).1
    unfold on_cancel_start
    rcases hp : s.pending_start with _ | p
    · exact ⟨h1, h2, h3, h4⟩
    · simp only [hp]
      split_ifs
      · exact ⟨h1, h2, h3, fun q hq => Option.noConfusion hq⟩
      · exact ⟨h1, h2, h3, h4⟩
  | respondStart sid accept =>
    show TimeInv (respondWithRead O s sid accept s.pending_start).1
    cases accept
    · rcases hp : s.pending_start with _ | cur <;>
        simp only [respondWithRead, hp] <;> exact ⟨h1, h2, h3, h4⟩
    · rcases hp : s.pending_start with _ | cur
      · simp only [respondWithRead, hp]
        exact ⟨h1, h2, h3, h4⟩
      · rcases hop : cur.opponent with _ | osid
        · obtain ⟨hcb, hci⟩ := h4 cur hp
          simp only [respondWithRead, hp, hop, reset_game]
          refine ⟨?_, ?_, ?_, ?_⟩
          · show 0 ≤ cur.base * 60
            exact mul_nonneg hcb (by norm_num)
          · show 0 ≤ cur.base * 60
            exact mul_nonneg hcb (by norm_num)
          · show 0 ≤ cur.inc
            exact hci
          · intro q hq
            exact Option.noConfusion hq
        · simp only [respondWithRead, hp, hop]
          exact ⟨h1, h2, h3, h4⟩
  | forfeit sid =>
    show TimeInv (on_forfeit O s sid).1
    simp only [on_forfeit]
    split_ifs <;> exact ⟨h1, h2, h3, h4⟩
  | hardReset =>
    refine ⟨show (0 : Int) ≤ 2 * 60 by norm_num, show (0 : Int) ≤ 2 * 60 by norm_num,
      le_refl 0, ?_⟩
    intro p hp
    exact Option.noConfusion hp
  | tick =>
    show TimeInv (timer_tick O s).1
    simp only [timer_tick]
    split_ifs <;>
      first
        | exact ⟨h1, h2, h3, h4⟩
        | exact ⟨le_max_left 0 _, h2, h3, h4⟩
        | exact ⟨h1, le_max_left 0 _, h3, h4⟩

/-- `TimeInv` holds in every state reachable with non-negative inputs. -/
theorem timeInv_reachable {Pos Move : Type} (O : Oracle Pos Move)
    (s : ServerState Pos) (h : ReachableP O NonnegAct s) : TimeInv s := by
  induction h with
  | init => exact ⟨show (0 : Int) ≤ 120 by norm_num, show (0 : Int) ≤ 120 by norm_num, le_refl 0, fun p hp => Option.noConfusion hp⟩
  | step hs ha ih => exact timeInv_step _ _ _ ih ha

/-- The state after a client sends `setTimeControl{baseMins: -1, inc: 0}`
to the freshly started server. -/
def c5_negState : ServerState Nat :=
  (stepAct trivOracle (initialState trivOracle) (Act.setTimeControl (-1) 0)).1

/-- C5 counterexample: the claim's "in every reachable state each Seat's
remaining time is non-negative" fails — one unconstrained client message
(`setTimeControl` with `baseMins = -1`) reaches a state whose white clock
is `-60` seconds. -/
theorem c5_counterexample :
    ReachableP trivOracle (fun _ => True) c5_negState ∧
    c5_negState.white_time < 0 ∧ c5_negState.black_time < 0 :=
  ⟨ReachableP.step ReachableP.init trivial, by decide, by decide⟩

/-- C5 amended: (i) provided all `setTimeControl`/`proposeStart` inputs
carry non-negative base and increment, every reachable state has
non-negative clocks; (ii)/(iii) a clock tick clamps the decrement at zero,
and when the ticking seat's remaining time reaches exactly zero the tick
emits exactly one termination overlay naming the opposite seat as winner
and halts the clock. -/
theorem c5_clock_floor_and_timeout :
    (∀ {Pos Move : Type} (O : Oracle Pos Move) (s : ServerState Pos),
       ReachableP O NonnegAct s → 0 ≤ s.white_time ∧ 0 ≤ s.black_time) ∧
    (∀ {Pos Move : Type} (O : Oracle Pos Move) (s : ServerState Pos),
       s.timer_running = true → O.isGameOver s.board = false →
       O.turnIsWhite s.board = true → max 0 (s.white_time - 1) = 0 →
       timer_tick O s =
         ({ s with white_time := 0, timer_running := false },
          [Event.overlay "Black wins on time!" none none none,
           broadcast_state O { s with white_time := 0, timer_running := false } .plain])) ∧
    (∀ {Pos Move : Type} (O : Oracle Pos Move) (s : ServerState Pos),
       s.timer_running = true → O.isGameOver s.board = false →
       O.turnIsWhite s.board = false → max 0 (s.black_time - 1) = 0 →
       timer_tick O s =
         ({ s with black_time := 0, timer_running := false },
          [Event.overlay "White wins on time!" none none none,
           broadcast_state O { s with black_time := 0, timer_running := false } .plain])) := by
  refine ⟨?_, ?_, ?_⟩
  · intro Pos Move O s h
    obtain ⟨h1, h2, _, _⟩ := timeInv_reachable O s h
    exact ⟨h1, h2⟩
  · intro Pos Move O s hrun hgo ht hz
    simp only [timer_tick, hrun, hgo, ht, hz, if_true, Bool.false_eq_true, if_false,
      reduceIte]
  · intro Pos Move O s hrun hgo ht hz
    simp only [timer_tick, hrun, hgo, ht, hz, if_true, Bool.false_eq_true, if_false,
      reduceIte]

/-- A mid-match state where white has one second left. -/
def c5_tickState : ServerState Nat := { matchState with white_time := 1 }

/-- Witness for C5's amended theorem: the initial state is reachable with
non-negative clocks, and a tick of `c5_tickState` (white to move with one
second left) yields the time-out overlay and a halted clock. -/
theorem c5_witness :
    (0 ≤ (initialState trivOracle).white_time ∧ 0 ≤ (initialState trivOracle).black_time) ∧
    timer_tick trivOracle c5_tickState =
      ({ c5_tickState with white_time := 0, timer_running := false },
       [Event.overlay "Black wins on time!" none none none,
        broadcast_state trivOracle
          { c5_tickState with white_time := 0, timer_running := false } .plain]) :=
  ⟨c5_clock_floor_and_timeout.1 trivOracle (initialState trivOracle) ReachableP.init,
   c5_clock_floor_and_timeout.2.1 trivOracle c5_tickState rfl rfl rfl (by decide)⟩
